import Mathlib

/-!
Verification of the data-transformation core of the Global-Temp dashboard
(`ProjectDashboard.py`).

The script is a linear pandas pipeline: wide CSV tables are reshaped into
long tables, user-selected filters (country, exact year, inclusive year
range) derive views, and group-by aggregations (mean, sample standard
deviation, 5-year bucketing) feed the charts.  We embed each of those
transformations as a pure Lean function over lists of row records and prove
the specified properties about them.

Modelling conventions:
* a pandas DataFrame is a `List` of row structures; filtering with a boolean
  mask is `List.filter`, and `.copy()` makes the result a fresh value, so the
  embedding is purely functional exactly like the source views;
* the `"All"` sentinel of the two select boxes is encoded as `none` in an
  `Option`-typed selection field;
* float cell values are modelled as rationals; the sample standard deviation
  (which is irrational) is represented by its square, the sample variance,
  together with bridging lemmas through `Real.sqrt` so that every statement
  about standard deviations is literal; a pandas `NaN` statistic (std of a
  single observation, `ddof = 1`) is `none`;
* pandas orders group-by keys ascending; the embedding keeps them in a
  `dedup` order instead.  No claim observes the intermediate key order (the
  final bar data is re-sorted by delta, and the other claims are about the
  set of produced rows), so only membership and multiplicity are modelled.
-/

namespace GlobalTemp

/-- One row of the long temperature table `df_long` produced by melting the
wide annual-temperature CSV on its numeric year columns
(`ProjectDashboard.py` lines 21-37).  `devStatus` is the column added at
line 35. -/
structure LongRow where
  country : String
  iso2 : String
  iso3 : String
  indicator : String
  unitName : String
  year : Int
  tempChange : Rat
  devStatus : String
  deriving DecidableEq, Repr

/-- One row of the monthly table `df_monthly` (lines 48-50); `value` is the
column renamed to "Monthly Average Temperature Change (°C)". -/
structure MonthlyRow where
  entity : String
  year : Int
  month : Int
  monthName : String
  value : Rat
  deriving DecidableEq, Repr

/-- One row of the gas-contribution table `df2` (line 41).  The six melted
gas/source value columns play no role in the claims below and are omitted. -/
structure GasRow where
  entity : String
  code : String
  year : Int
  deriving DecidableEq, Repr

/-- The fixed developed-economy set (lines 33-34). -/
def developed_iso3 : List String :=
  ["USA", "CAN", "GBR", "DEU", "FRA", "JPN",
   "AUS", "NZL", "NOR", "SWE", "CHE"]

/-- The lambda applied to the `ISO3` column at lines 35-37. -/
def devStatusOf (x : String) : String :=
  if x ∈ developed_iso3 then "Developed" else "Developing"

/-- `df_long["DevStatus"] = df_long["ISO3"].apply(...)` (lines 35-37): the
`DevStatus` column is recomputed from `ISO3` on every row. -/
def assignDevStatus (t : List LongRow) : List LongRow :=
  t.map (fun r => { r with devStatus := devStatusOf r.iso3 })

/-- The per-session filter state read from the sidebar widgets: `country`
and `year` are `none` when the corresponding select box shows `"All"`, and
`yearRange` is the two-ended slider value (lines 70-80). -/
structure Selection where
  country : Option String
  year : Option Int
  yearRange : Int × Int
  deriving DecidableEq, Repr

/-- The charts-view table `filtered_chart` (lines 85-94): the inclusive
year-range mask is applied first, then the country filter when the select
box is not `"All"`, then the exact-year filter when that one is not
`"All"`. -/
def filtered_chart (t : List LongRow) (sel : Selection) : List LongRow :=
  let f1 := t.filter (fun r =>
    decide (sel.yearRange.1 ≤ r.year) && decide (r.year ≤ sel.yearRange.2))
  let f2 := match sel.country with
    | none => f1
    | some c => f1.filter (fun r => r.country == c)
  match sel.year with
  | none => f2
  | some y => f2.filter (fun r => r.year == y)

/-- `filtered_chart_monthly` (lines 97-104): the monthly table gets the
year-range mask and the exact-year filter, but no country filter. -/
def filtered_chart_monthly (m : List MonthlyRow) (sel : Selection) : List MonthlyRow :=
  let f1 := m.filter (fun r =>
    decide (sel.yearRange.1 ≤ r.year) && decide (r.year ≤ sel.yearRange.2))
  match sel.year with
  | none => f1
  | some y => f1.filter (fun r => r.year == y)

/-- Lines 107-110: the script rebinds `df2` to a year-range-filtered copy of
itself. -/
def df2Filtered (g : List GasRow) (sel : Selection) : List GasRow :=
  g.filter (fun r =>
    decide (sel.yearRange.1 ≤ r.year) && decide (r.year ≤ sel.yearRange.2))

/-- `df_monthly_filtered` (lines 157-161): when the country select box shows
`"All"` the monthly line chart is restricted to the single entity `"World"`,
otherwise to the selected country. -/
def df_monthly_filtered (m : List MonthlyRow) (sel : Selection) : List MonthlyRow :=
  match sel.country with
  | none => (filtered_chart_monthly m sel).filter (fun r => r.entity == "World")
  | some c => (filtered_chart_monthly m sel).filter (fun r => r.entity == c)

/-- `gas_data` (lines 234-237): substitutes `"World"` for the `"All"`
sentinel and keeps the rows of that single entity from the (already
year-range-filtered) gas table. -/
def gas_data (g : List GasRow) (entity : Option String) : List GasRow :=
  let name := match entity with | none => "World" | some c => c
  g.filter (fun r => r.entity == name)

/-- The script-level bindings touched by the filter step: the three loaded
source tables and the two derived views. -/
structure Dashboard where
  df_long : List LongRow
  df_monthly : List MonthlyRow
  df2 : List GasRow
  filteredChart : List LongRow
  filteredChartMonthly : List MonthlyRow
  deriving Repr

/-- The whole "Data after filters" section (lines 85-110) as one state
transition: each view is a boolean-mask selection plus `.copy()`, i.e. a
fresh value derived from the sources; `df2` is the one binding the script
overwrites (with a filtered copy, line 107). -/
def applyFiltersStep (sel : Selection) (s : Dashboard) : Dashboard :=
  { df_long := s.df_long
    df_monthly := s.df_monthly
    df2 := df2Filtered s.df2 sel
    filteredChart := filtered_chart s.df_long sel
    filteredChartMonthly := filtered_chart_monthly s.df_monthly sel }

/-- The 5-year bucket key `(df_long["Year"] // 5) * 5` (line 327).  Python
`//` is floor division, which on `Int` is `Int.fdiv`. -/
def yearGroup (y : Int) : Int := (Int.fdiv y 5) * 5

/-- Arithmetic mean of a list of values (pandas `.mean()`; the groups a
`groupMeanBy` feeds it are always non-empty). -/
def listMean (xs : List Rat) : Rat := xs.sum / xs.length

/-- Group-by-then-mean, the shape shared by `yearly_averages` (line 168),
`dev_avg` (lines 300-303) and `dev_bar` (lines 328-331): one output row per
distinct key, whose value is the mean of the value column over every input
row carrying that key. -/
def groupMeanBy {α κ : Type} [DecidableEq κ] (key : α → κ) (val : α → Rat)
    (t : List α) : List (κ × Rat) :=
  (t.map key).dedup.map
    (fun k => (k, listMean ((t.filter (fun r => decide (key r = k))).map val)))

/-- `dev_avg` (lines 300-303): mean `TempChange` per `(Year, DevStatus)`
pair over the full long table. -/
def dev_avg (t : List LongRow) : List ((Int × String) × Rat) :=
  groupMeanBy (fun r => (r.year, r.devStatus)) (fun r => r.tempChange) t

/-- `yearly_averages` (line 168): mean monthly value per `(Year, Entity)`
pair of the filtered monthly view. -/
def yearly_averages (m : List MonthlyRow) : List ((Int × String) × Rat) :=
  groupMeanBy (fun r => (r.year, r.entity)) (fun r => r.value) m

/-- The group-comparison line-chart source as the script computes it: the
sidebar selection is in scope at line 300, but `dev_avg` reads only the full
`df_long`. -/
def devChartSource (_sel : Selection) (t : List LongRow) :
    List ((Int × String) × Rat) :=
  dev_avg t

/-- Membership in a group-by-mean result: one row per key of the input, and
the row's value is the mean over every input row with that key. -/
theorem mem_groupMeanBy {α κ : Type} [DecidableEq κ] (key : α → κ)
    (val : α → Rat) (t : List α) (k : κ) (v : Rat) :
    (k, v) ∈ groupMeanBy key val t ↔
      k ∈ t.map key ∧
      v = listMean ((t.filter (fun r => decide (key r = k))).map val) := by
  unfold groupMeanBy
  constructor
  · intro h
    rcases List.mem_map.1 h with ⟨k0, hk0, heq⟩
    have hk : k0 = k := congrArg Prod.fst heq
    subst hk
    exact ⟨List.mem_dedup.1 hk0, (congrArg Prod.snd heq).symm⟩
  · rintro ⟨hk, rfl⟩
    exact List.mem_map.2 ⟨k, List.mem_dedup.2 hk, rfl⟩

/-- The keys of a group-by-mean result are pairwise distinct. -/
theorem nodup_groupMeanBy_keys {α κ : Type} [DecidableEq κ] (key : α → κ)
    (val : α → Rat) (t : List α) :
    ((groupMeanBy key val t).map Prod.fst).Nodup := by
  unfold groupMeanBy
  rw [List.map_map]
  show ((t.map key).dedup.map id).Nodup
  rw [List.map_id]
  exact List.nodup_dedup (t.map key)

/-- Membership in a filtered charts view, with the two optional dropdown
filters as explicit pass-through conditions (AND composition). -/
theorem mem_filtered_chart (t : List LongRow) (cSel : Option String)
    (ySel : Option Int) (lo hi : Int) (r : LongRow) :
    r ∈ filtered_chart t ⟨cSel, ySel, (lo, hi)⟩ ↔
      r ∈ t ∧ (lo ≤ r.year ∧ r.year ≤ hi) ∧
        (∀ c0, cSel = some c0 → r.country = c0) ∧
        (∀ y0, ySel = some y0 → r.year = y0) := by
  cases cSel <;> cases ySel <;>
    simp [filtered_chart, List.mem_filter, beq_iff_eq, and_assoc] <;>
    tauto

/-- C4: for every row of the labeled long table, `DevStatus` is `"Developed"`
exactly when the row's ISO3 code belongs to the fixed developed-economy set
and `"Developing"` otherwise; the classifier itself is total and
deterministic (a function on all of `String`). -/
theorem dev_status_spec (t : List LongRow) (r : LongRow)
    (h : r ∈ assignDevStatus t) :
    (r.devStatus = "Developed" ↔ r.iso3 ∈ developed_iso3) ∧
    (r.devStatus = "Developed" ∨ r.devStatus = "Developing") := by
  rcases List.mem_map.1 h with ⟨r0, _, rfl⟩
  simp only [devStatusOf]
  by_cases hmem : r0.iso3 ∈ developed_iso3
  · simp [hmem]
  · simp [hmem]

/-- Witness for C4 on a concrete one-row table. -/
theorem dev_status_check :
    ({ country := "United States", iso2 := "US", iso3 := "USA",
       indicator := "Temp", unitName := "C", year := 1999,
       tempChange := 1, devStatus := "Developed" } : LongRow).devStatus
        = "Developed" := by
  have h := dev_status_spec
    [{ country := "United States", iso2 := "US", iso3 := "USA",
       indicator := "Temp", unitName := "C", year := 1999,
       tempChange := 1, devStatus := "" }]
    { country := "United States", iso2 := "US", iso3 := "USA",
      indicator := "Temp", unitName := "C", year := 1999,
      tempChange := 1, devStatus := "Developed" }
    (by simp [assignDevStatus, devStatusOf, developed_iso3])
  exact h.1.2 (by decide)

/-- C5: each of the three filters is optional (the `"All"` sentinel is a
pass-through), they compose as a logical AND (exact country match, exact
year match, inclusive year-range bounds), and adding filters only narrows:
the fully filtered view is a sub-list of the entity-filtered view, which is
a sub-list of the source table. -/
theorem apply_filters_spec (t : List LongRow) (c : String) (y lo hi : Int) :
    (∀ (cSel : Option String) (ySel : Option Int) (r : LongRow),
      r ∈ filtered_chart t ⟨cSel, ySel, (lo, hi)⟩ ↔
        r ∈ t ∧ (lo ≤ r.year ∧ r.year ≤ hi) ∧
          (∀ c0, cSel = some c0 → r.country = c0) ∧
          (∀ y0, ySel = some y0 → r.year = y0)) ∧
    (filtered_chart t ⟨some c, some y, (lo, hi)⟩).Sublist
      (filtered_chart t ⟨some c, none, (lo, hi)⟩) ∧
    (filtered_chart t ⟨some c, none, (lo, hi)⟩).Sublist t := by
  refine ⟨?_, ?_, ?_⟩
  · exact fun cSel ySel r => mem_filtered_chart t cSel ySel lo hi r
  · exact List.filter_sublist _
  · exact (List.filter_sublist _).trans (List.filter_sublist _)

/-- C6: the 5-year bucket key is floor division by 5 re-scaled by 5, so a
year lands in bucket `b` exactly when `b` is the multiple-of-5 lower bound
of the 5 consecutive years starting at `b`; in particular 1990, 1993 and
1994 land in bucket 1990 while 1995 starts bucket 1995. -/
theorem year_group_spec :
    (∀ y b : Int, yearGroup y = b ↔ b % 5 = 0 ∧ b ≤ y ∧ y < b + 5) ∧
    yearGroup 1990 = 1990 ∧ yearGroup 1993 = 1990 ∧
    yearGroup 1994 = 1990 ∧ yearGroup 1995 = 1995 := by
  have hfd : ∀ y : Int, Int.fdiv y 5 = y / 5 := fun y =>
    Int.fdiv_eq_ediv y (by norm_num)
  refine ⟨?_, ?_, ?_, ?_, ?_⟩ <;> simp only [yearGroup, hfd]
  · intro y b
    omega
  all_goals decide

/-- C7: the filter step never mutates the loaded source tables — after it
runs, `df_long` and `df_monthly` hold exactly the rows and values they held
before (every derived view is a fresh value). -/
theorem apply_filters_frame (sel : Selection) (s : Dashboard) :
    (applyFiltersStep sel s).df_long = s.df_long ∧
    (applyFiltersStep sel s).df_monthly = s.df_monthly := ⟨rfl, rfl⟩

/-- C10: with the entity select box on `"All"`, the monthly line chart and
the gas area chart do not show every entity: both views substitute the
single entity `"World"`, so each of their rows has entity name `"World"`. -/
theorem world_substitution_spec (m : List MonthlyRow) (g : List GasRow)
    (sel : Selection) (h : sel.country = none) :
    (∀ r ∈ df_monthly_filtered m sel, r.entity = "World") ∧
    (∀ r ∈ gas_data (df2Filtered g sel) sel.country, r.entity = "World") := by
  constructor
  · intro r hr
    rw [df_monthly_filtered, h] at hr
    exact beq_iff_eq.1 (List.mem_filter.1 hr).2
  · intro r hr
    rw [h] at hr
    exact beq_iff_eq.1 (List.mem_filter.1 hr).2

/-- Witness for C10 on concrete monthly and gas tables: the one row that
survives the `"All"` substitution is the World row. -/
theorem world_substitution_check :
    ({ entity := "World", year := 2000, month := 1,
       monthName := "January", value := 1 } : MonthlyRow).entity = "World" :=
  (world_substitution_spec
    [{ entity := "World", year := 2000, month := 1,
       monthName := "January", value := 1 },
     { entity := "USA", year := 2000, month := 1,
       monthName := "January", value := 2 }]
    ([] : List GasRow) ⟨none, none, (1961, 2024)⟩ rfl).1
    { entity := "World", year := 2000, month := 1,
      monthName := "January", value := 1 } (by decide)

/-- C1: with the country box on `"USA"`, the year box on `"All"` and year
range 1961-2024, every charts-view row is a USA row with year in 1961..2024
inclusive; and the group-comparison line source has exactly one row per
distinct `(Year, DevStatus)` pair of the full labeled long table, valued at
the mean `TempChange` over all entities of that year and group — a function
of the long table alone, hence unaffected by the entity (or year) select
box. -/
theorem end_to_end_usa_spec (t : List LongRow) :
    (∀ r ∈ filtered_chart (assignDevStatus t) ⟨some "USA", none, (1961, 2024)⟩,
      r.country = "USA" ∧ 1961 ≤ r.year ∧ r.year ≤ 2024) ∧
    ((dev_avg (assignDevStatus t)).map Prod.fst).Nodup ∧
    (∀ (k : Int × String) (v : Rat),
      (k, v) ∈ dev_avg (assignDevStatus t) ↔
        k ∈ (assignDevStatus t).map (fun r => (r.year, r.devStatus)) ∧
        v = listMean (((assignDevStatus t).filter
            (fun r => decide ((r.year, r.devStatus) = k))).map
            (fun r => r.tempChange))) ∧
    (∀ sel sel' : Selection,
      devChartSource sel (assignDevStatus t)
        = devChartSource sel' (assignDevStatus t)) := by
  refine ⟨?_, nodup_groupMeanBy_keys _ _ _,
    fun k v => mem_groupMeanBy _ _ _ k v, fun _ _ => rfl⟩
  intro r hr
  have h := (mem_filtered_chart (assignDevStatus t)
    (some "USA") none 1961 2024 r).1 hr
  exact ⟨h.2.2.1 "USA" rfl, h.2.1.1, h.2.1.2⟩

/-- C9: aggregating an empty filtered view produces an empty result rather
than an error — group-by-mean of zero rows has zero groups, so both chart
aggregations turn "no data" into a valid empty chart source. -/
theorem grouped_mean_empty_spec :
    (∀ {α κ : Type} [DecidableEq κ] (key : α → κ) (val : α → Rat),
      groupMeanBy key val [] = []) ∧
    dev_avg [] = [] ∧ yearly_averages [] = [] := by
  refine ⟨?_, rfl, rfl⟩
  intro α κ _ key val
  rfl

/-- One row of the contribution table `df_contribution` (line 53). -/
structure ContributionRow where
  entity : String
  year : Int
  share : Rat
  deriving DecidableEq, Repr

/-- `data_long_list` (line 57): the distinct country names of the long
table (pandas `.unique()`; only membership matters below). -/
def data_long_list (t : List LongRow) : List String :=
  (t.map (fun r => r.country)).dedup

/-- `data_contribution_list` (line 58). -/
def data_contribution_list (d : List ContributionRow) : List String :=
  (d.map (fun r => r.entity)).dedup

/-- `df_monthly_list` (line 59). -/
def df_monthly_list (m : List MonthlyRow) : List String :=
  (m.map (fun r => r.entity)).dedup

/-- The list comprehension at line 62, exactly as written: the Python
condition parses as `(x in data_contribution_list) and df_monthly_list`, so
its second conjunct is only the truthiness (non-emptiness) of the monthly
country list, not a membership test in it. -/
def in_all (dataLongList dataContributionList dfMonthlyList : List String) :
    List String :=
  dataLongList.filter
    (fun x => decide (x ∈ dataContributionList) && !dfMonthlyList.isEmpty)

/-- C3 (code bug): the comment above the construction (line 56) announces
"countries that are found across all datasets", but the membership test
against the monthly list is vacuous.  On concrete source tables whose
monthly table only knows `"USA"`, the offered list still keeps `"FRA"`. -/
theorem in_all_code_bug :
    in_all
        (data_long_list
          [{ country := "USA", iso2 := "US", iso3 := "USA",
             indicator := "Temp", unitName := "C", year := 1970,
             tempChange := 1, devStatus := "Developed" },
           { country := "FRA", iso2 := "FR", iso3 := "FRA",
             indicator := "Temp", unitName := "C", year := 1970,
             tempChange := 2, devStatus := "Developed" }])
        (data_contribution_list
          [{ entity := "USA", year := 1970, share := 1 },
           { entity := "FRA", year := 1970, share := 2 }])
        (df_monthly_list
          [{ entity := "USA", year := 1970, month := 1,
             monthName := "January", value := 1 }])
      = ["USA", "FRA"] ∧
    "FRA" ∉ df_monthly_list
        [{ entity := "USA", year := 1970, month := 1,
           monthName := "January", value := 1 }] := by
  constructor
  · decide
  · decide

/-- One character of Python's `str.isdigit` class, over the character
fragment this development models: the decimal digits `0`-`9` together with
the superscript digits `¹`, `²`, `³` (U+00B9, U+00B2, U+00B3), which are
Unicode digit-class characters that `str.isdigit` accepts but `int`
rejects.  (The remaining non-ASCII decimal digits, such as the Arabic-Indic
ones, are accepted by both `str.isdigit` and `int`, so leaving them out of
the fragment cannot change which headers are selected-but-unparsable.) -/
def pyIsDigitChar (c : Char) : Bool :=
  c.isDigit || c = '¹' || c = '²' || c = '³'

/-- Python `str.isdigit` (line 21's `c.isdigit()`): non-empty and every
character of digit class. -/
def pyIsDigit (s : String) : Bool :=
  !s.toList.isEmpty && s.toList.all pyIsDigitChar

/-- `year_cols` (line 21): the wide-table headers kept as year columns. -/
def year_cols (cols : List String) : List String := cols.filter pyIsDigit

/-- Decimal value of a digit string. -/
def digitsToNat (cs : List Char) : Nat :=
  cs.foldl (fun n c => 10 * n + (c.toNat - 48)) 0

/-- Optional leading sign of a Python integer literal. -/
def stripSign : List Char → Bool × List Char
  | [] => (false, [])
  | c :: rest =>
    if c = '-' then (true, rest)
    else if c = '+' then (false, rest)
    else (false, c :: rest)

/-- Model of the Python `int` conversion that `astype(int)` applies to the
melted `Year` column (line 28): an optional sign followed by a non-empty
run of decimal digits `0`-`9`; anything else — notably a digit-class
character such as `²`, which `int` rejects — raises, surfaced here as the
spec's `SchemaError`. -/
def pyInt (s : String) : Except String Int :=
  let p := stripSign s.toList
  if !p.2.isEmpty && p.2.all Char.isDigit then
    Except.ok (if p.1 then -(digitsToNat p.2 : Int) else (digitsToNat p.2 : Int))
  else
    Except.error "SchemaError"

/-- Sequential parse of a list of headers, stopping at the first failure
(the way `astype(int)` converts a whole column or raises). -/
def parseAll (f : String → Except String Int) :
    List String → Except String (List Int)
  | [] => Except.ok []
  | c :: cs => do
    let n ← f c
    let l ← parseAll f cs
    pure (n :: l)

/-- The `Year` header values the reshape step parses (lines 21-28). -/
def yearValues (cols : List String) : Except String (List Int) :=
  parseAll pyInt (year_cols cols)

/-- A header made of digits only never starts with a sign. -/
theorem stripSign_of_digits (cs : List Char) (h : cs.all Char.isDigit = true) :
    stripSign cs = (false, cs) := by
  cases cs with
  | nil => rfl
  | cons c rest =>
    have hc : c.isDigit = true := by
      have := List.all_eq_true.1 h c (by simp)
      simpa using this
    have h1 : c ≠ '-' := by
      intro he
      subst he
      simp [Char.isDigit] at hc
    have h2 : c ≠ '+' := by
      intro he
      subst he
      simp [Char.isDigit] at hc
    simp [stripSign, h1, h2]

/-- A selected header made of decimal digits parses. -/
theorem pyInt_of_decimal (h : String) (hsel : pyIsDigit h = true)
    (hdec : h.toList.all Char.isDigit = true) :
    ∃ n : Int, pyInt h = Except.ok n := by
  rw [pyIsDigit, Bool.and_eq_true] at hsel
  have hne : h.toList.isEmpty = false := by
    cases he : h.toList.isEmpty
    · rfl
    · rw [he] at hsel
      exact absurd hsel.1 (by decide)
  refine ⟨(digitsToNat h.toList : Int), ?_⟩
  rw [pyInt, stripSign_of_digits h.toList hdec]
  simp only [hne, hdec]
  rfl

/-- C8 counterexample: the digit-class header `"²"` is selected by the
`isdigit` rule of line 21 alongside `"1990"`, yet the `int` conversion of
line 28 rejects it, so the `Year` column conversion of this frame fails —
the parse-failure branch is reachable. -/
theorem year_cols_counterexample :
    year_cols ["Country", "²", "1990"] = ["²", "1990"] ∧
    yearValues ["Country", "²", "1990"] = Except.error "SchemaError" :=
  ⟨rfl, rfl⟩

/-- C8 (amended): `year_cols` keeps exactly the headers whose string passes
`str.isdigit`; a kept header need not parse as an integer (the digit-class
superscripts are selected but rejected by `int`, see
`year_cols_counterexample`), but whenever every kept header consists of
decimal digits `0`-`9` — as the numeric year headers of the wide CSV do —
every kept header parses and the whole `Year` conversion succeeds. -/
theorem year_cols_spec (cols : List String) :
    (∀ h, h ∈ year_cols cols ↔ h ∈ cols ∧ pyIsDigit h = true) ∧
    ((∀ h ∈ year_cols cols, h.toList.all Char.isDigit = true) →
      ∃ l, yearValues cols = Except.ok l) := by
  constructor
  · intro h
    simp [year_cols, List.mem_filter]
  · intro hdec
    have : ∀ sel : List String, (∀ h ∈ sel, pyIsDigit h = true) →
        (∀ h ∈ sel, h.toList.all Char.isDigit = true) →
        ∃ l, parseAll pyInt sel = Except.ok l := by
      intro sel
      induction sel with
      | nil => exact fun _ _ => ⟨[], rfl⟩
      | cons c cs ih =>
        intro hall hall2
        rcases pyInt_of_decimal c (hall c (by simp)) (hall2 c (by simp))
          with ⟨n, hn⟩
        rcases ih (fun x hx => hall x (by simp [hx]))
            (fun x hx => hall2 x (by simp [hx])) with ⟨l, hl⟩
        refine ⟨n :: l, ?_⟩
        rw [parseAll]
        simp only [hn, hl]
        rfl
    exact this (year_cols cols)
      (fun h hh => (List.mem_filter.1 hh).2) hdec

/-- Squaring is monotone between non-negative reals. -/
theorem sq_le_sq_iff_nonneg {A B : ℝ} (hA : 0 ≤ A) (hB : 0 ≤ B) :
    A ^ 2 ≤ B ^ 2 ↔ A ≤ B :=
  ⟨fun h => by nlinarith, fun h => by nlinarith⟩

/-- Rational decision of `2·√u ≤ t + 2·√v` for non-negative rationals `u`,
`v`: repeated careful squaring. -/
def sqrt2LE (u t v : ℚ) : Bool :=
  if 0 ≤ t then
    if 4 * u - t ^ 2 - 4 * v ≤ 0 then true
    else decide ((4 * u - t ^ 2 - 4 * v) ^ 2 ≤ 16 * t ^ 2 * v)
  else
    if 4 * v - 4 * u - t ^ 2 < 0 then false
    else decide (16 * t ^ 2 * u ≤ (4 * v - 4 * u - t ^ 2) ^ 2)

/-- Correctness of `sqrt2LE`. -/
theorem sqrt2LE_iff {u v : ℚ} (t : ℚ) (hu : 0 ≤ u) (hv : 0 ≤ v) :
    sqrt2LE u t v = true ↔
      2 * Real.sqrt (u : ℝ) ≤ (t : ℝ) + 2 * Real.sqrt (v : ℝ) := by
  have ha : (0:ℝ) ≤ Real.sqrt (u:ℝ) := Real.sqrt_nonneg _
  have hb : (0:ℝ) ≤ Real.sqrt (v:ℝ) := Real.sqrt_nonneg _
  have ha2 : (Real.sqrt (u:ℝ)) ^ 2 = (u:ℝ) := Real.sq_sqrt (by exact_mod_cast hu)
  have hb2 : (Real.sqrt (v:ℝ)) ^ 2 = (v:ℝ) := Real.sq_sqrt (by exact_mod_cast hv)
  set a := Real.sqrt (u:ℝ)
  set b := Real.sqrt (v:ℝ)
  rw [sqrt2LE]
  split_ifs with h1 h2 h3
  · have h1' : (0:ℝ) ≤ (t:ℝ) := by exact_mod_cast h1
    have h2' : 4 * (u:ℝ) - (t:ℝ) ^ 2 - 4 * (v:ℝ) ≤ 0 := by exact_mod_cast h2
    simp only [true_iff]
    refine (sq_le_sq_iff_nonneg (by linarith) (by linarith)).1 ?_
    nlinarith [mul_nonneg h1' hb]
  · have h1' : (0:ℝ) ≤ (t:ℝ) := by exact_mod_cast h1
    have hw : (0:ℝ) < 4 * (u:ℝ) - (t:ℝ) ^ 2 - 4 * (v:ℝ) := by
      have := not_le.1 h2
      exact_mod_cast this
    have htb : (0:ℝ) ≤ 4 * (t:ℝ) * b := by nlinarith [mul_nonneg h1' hb]
    rw [decide_eq_true_eq]
    constructor
    · intro hd
      have hd' : (4 * (u:ℝ) - (t:ℝ) ^ 2 - 4 * (v:ℝ)) ^ 2 ≤ 16 * (t:ℝ) ^ 2 * (v:ℝ) := by
        exact_mod_cast hd
      have step : 4 * (u:ℝ) - (t:ℝ) ^ 2 - 4 * (v:ℝ) ≤ 4 * (t:ℝ) * b := by
        refine (sq_le_sq_iff_nonneg (le_of_lt hw) htb).1 ?_
        calc (4 * (u:ℝ) - (t:ℝ) ^ 2 - 4 * (v:ℝ)) ^ 2
            ≤ 16 * (t:ℝ) ^ 2 * (v:ℝ) := hd'
          _ = (4 * (t:ℝ) * b) ^ 2 := by rw [← hb2]; ring
      refine (sq_le_sq_iff_nonneg (by linarith) (by linarith)).1 ?_
      nlinarith [step]
    · intro hP
      have key : (2 * a) ^ 2 ≤ ((t:ℝ) + 2 * b) ^ 2 :=
        (sq_le_sq_iff_nonneg (by linarith) (by linarith)).2 hP
      have step : 4 * (u:ℝ) - (t:ℝ) ^ 2 - 4 * (v:ℝ) ≤ 4 * (t:ℝ) * b := by
        nlinarith [key]
      have : (4 * (u:ℝ) - (t:ℝ) ^ 2 - 4 * (v:ℝ)) ^ 2 ≤ 16 * (t:ℝ) ^ 2 * (v:ℝ) := by
        have hsq : (4 * (u:ℝ) - (t:ℝ) ^ 2 - 4 * (v:ℝ)) ^ 2 ≤ (4 * (t:ℝ) * b) ^ 2 :=
          (sq_le_sq_iff_nonneg (le_of_lt hw) htb).2 step
        calc (4 * (u:ℝ) - (t:ℝ) ^ 2 - 4 * (v:ℝ)) ^ 2
            ≤ (4 * (t:ℝ) * b) ^ 2 := hsq
          _ = 16 * (t:ℝ) ^ 2 * (v:ℝ) := by rw [← hb2]; ring
      exact_mod_cast this
  · have ht' : (t:ℝ) < 0 := by exact_mod_cast not_le.1 h1
    have h3' : 4 * (v:ℝ) - 4 * (u:ℝ) - (t:ℝ) ^ 2 < 0 := by exact_mod_cast h3
    constructor
    · intro h
      exact absurd h (by decide)
    · intro hP
      exfalso
      have key : (2 * a - (t:ℝ)) ^ 2 ≤ (2 * b) ^ 2 :=
        (sq_le_sq_iff_nonneg (by linarith) (by linarith)).2 (by linarith)
      nlinarith [mul_nonneg (neg_nonneg.2 (le_of_lt ht')) ha, key]
  · have ht' : (t:ℝ) < 0 := by exact_mod_cast not_le.1 h1
    have hw : (0:ℝ) ≤ 4 * (v:ℝ) - 4 * (u:ℝ) - (t:ℝ) ^ 2 := by
      have := not_lt.1 h3
      exact_mod_cast this
    have hta : (0:ℝ) ≤ -(4 * (t:ℝ) * a) := by
      nlinarith [mul_nonneg (neg_nonneg.2 (le_of_lt ht')) ha]
    rw [decide_eq_true_eq]
    constructor
    · intro hd
      have hd' : 16 * (t:ℝ) ^ 2 * (u:ℝ) ≤ (4 * (v:ℝ) - 4 * (u:ℝ) - (t:ℝ) ^ 2) ^ 2 := by
        exact_mod_cast hd
      have step : -(4 * (t:ℝ) * a) ≤ 4 * (v:ℝ) - 4 * (u:ℝ) - (t:ℝ) ^ 2 := by
        refine (sq_le_sq_iff_nonneg hta hw).1 ?_
        calc (-(4 * (t:ℝ) * a)) ^ 2 = 16 * (t:ℝ) ^ 2 * (u:ℝ) := by rw [← ha2]; ring
          _ ≤ (4 * (v:ℝ) - 4 * (u:ℝ) - (t:ℝ) ^ 2) ^ 2 := hd'
      have key : 2 * a - (t:ℝ) ≤ 2 * b := by
        refine (sq_le_sq_iff_nonneg (by linarith) (by linarith)).1 ?_
        nlinarith [step]
      linarith
    · intro hP
      have key : (2 * a - (t:ℝ)) ^ 2 ≤ (2 * b) ^ 2 :=
        (sq_le_sq_iff_nonneg (by linarith) (by linarith)).2 (by linarith)
      have step : -(4 * (t:ℝ) * a) ≤ 4 * (v:ℝ) - 4 * (u:ℝ) - (t:ℝ) ^ 2 := by
        nlinarith [key]
      have : 16 * (t:ℝ) ^ 2 * (u:ℝ) ≤ (4 * (v:ℝ) - 4 * (u:ℝ) - (t:ℝ) ^ 2) ^ 2 := by
        have hsq : (-(4 * (t:ℝ) * a)) ^ 2 ≤ (4 * (v:ℝ) - 4 * (u:ℝ) - (t:ℝ) ^ 2) ^ 2 :=
          (sq_le_sq_iff_nonneg hta hw).2 step
        calc 16 * (t:ℝ) ^ 2 * (u:ℝ) = (-(4 * (t:ℝ) * a)) ^ 2 := by rw [← ha2]; ring
          _ ≤ (4 * (v:ℝ) - 4 * (u:ℝ) - (t:ℝ) ^ 2) ^ 2 := hsq
      exact_mod_cast this

/-- Rational decision of `√p + √q ≤ √r + √s` for non-negative rationals. -/
def sumSqrtLE (p q r s : ℚ) : Bool :=
  sqrt2LE (p * q) (r + s - (p + q)) (r * s)

/-- Correctness of `sumSqrtLE`. -/
theorem sumSqrtLE_iff {p q r s : ℚ} (hp : 0 ≤ p) (hq : 0 ≤ q) (hr : 0 ≤ r)
    (hs : 0 ≤ s) :
    sumSqrtLE p q r s = true ↔
      Real.sqrt (p:ℝ) + Real.sqrt (q:ℝ) ≤ Real.sqrt (r:ℝ) + Real.sqrt (s:ℝ) := by
  rw [sumSqrtLE, sqrt2LE_iff _ (mul_nonneg hp hq) (mul_nonneg hr hs)]
  have hpq : Real.sqrt ((p * q : ℚ) : ℝ) = Real.sqrt (p:ℝ) * Real.sqrt (q:ℝ) := by
    push_cast
    exact Real.sqrt_mul (by exact_mod_cast hp) _
  have hrs : Real.sqrt ((r * s : ℚ) : ℝ) = Real.sqrt (r:ℝ) * Real.sqrt (s:ℝ) := by
    push_cast
    exact Real.sqrt_mul (by exact_mod_cast hr) _
  have e1 : (Real.sqrt (p:ℝ) + Real.sqrt (q:ℝ)) ^ 2
      = (p:ℝ) + (q:ℝ) + 2 * (Real.sqrt (p:ℝ) * Real.sqrt (q:ℝ)) := by
    rw [add_sq, Real.sq_sqrt (by exact_mod_cast hp),
      Real.sq_sqrt (by exact_mod_cast hq)]
    ring
  have e2 : (Real.sqrt (r:ℝ) + Real.sqrt (s:ℝ)) ^ 2
      = (r:ℝ) + (s:ℝ) + 2 * (Real.sqrt (r:ℝ) * Real.sqrt (s:ℝ)) := by
    rw [add_sq, Real.sq_sqrt (by exact_mod_cast hr),
      Real.sq_sqrt (by exact_mod_cast hs)]
    ring
  rw [hpq, hrs]
  push_cast
  constructor
  · intro h
    refine (sq_le_sq_iff_nonneg (by positivity) (by positivity)).1 ?_
    rw [e1, e2]
    linarith
  · intro h
    have hsq := (sq_le_sq_iff_nonneg (by positivity) (by positivity)).2 h
    rw [e1, e2] at hsq
    linarith

/-- Rational decision of the std-delta comparison
`√b − √a ≤ √d − √c` (all arguments non-negative variances). -/
def deltaLE (a b c d : ℚ) : Bool := sumSqrtLE b c d a

/-- Correctness of `deltaLE`. -/
theorem deltaLE_iff {a b c d : ℚ} (ha : 0 ≤ a) (hb : 0 ≤ b) (hc : 0 ≤ c)
    (hd : 0 ≤ d) :
    deltaLE a b c d = true ↔
      Real.sqrt (b:ℝ) - Real.sqrt (a:ℝ) ≤ Real.sqrt (d:ℝ) - Real.sqrt (c:ℝ) := by
  rw [deltaLE, sumSqrtLE_iff hb hc hd ha]
  constructor <;> intro h <;> linarith

/-- Ordered insert of the stable sort used to model `sort_values`. -/
def insertLE {α : Type} (le : α → α → Bool) (x : α) : List α → List α
  | [] => [x]
  | y :: ys => if le x y then x :: y :: ys else y :: insertLE le x ys

/-- Insertion sort by a boolean comparison; `sort_values` only promises some
ascending arrangement, which this produces. -/
def sortLE {α : Type} (le : α → α → Bool) : List α → List α
  | [] => []
  | x :: xs => insertLE le x (sortLE le xs)

/-- Inserting permutes. -/
theorem perm_insertLE {α : Type} (le : α → α → Bool) (x : α) (l : List α) :
    (insertLE le x l).Perm (x :: l) := by
  induction l with
  | nil => exact List.Perm.refl _
  | cons y ys ih =>
    rw [insertLE]
    split
    · exact List.Perm.refl _
    · exact (ih.cons y).trans (List.Perm.swap x y ys)

/-- Sorting permutes. -/
theorem perm_sortLE {α : Type} (le : α → α → Bool) (l : List α) :
    (sortLE le l).Perm l := by
  induction l with
  | nil => exact List.Perm.refl _
  | cons x xs ih =>
    rw [sortLE]
    exact (perm_insertLE le x (sortLE le xs)).trans (ih.cons x)

/-- Inserting into a sorted list keeps it sorted, for a boolean comparison
that agrees with a transitive order on every element satisfying `P`. -/
theorem sorted_insertLE {α : Type} {R : α → α → Prop} {le : α → α → Bool}
    {P : α → Prop} (htrans : ∀ a b c, R a b → R b c → R a c)
    (hcmp : ∀ a b, P a → P b →
      ((le a b = true → R a b) ∧ (le a b = false → R b a)))
    (x : α) (hx : P x) :
    ∀ l : List α, (∀ a ∈ l, P a) → l.Sorted R → (insertLE le x l).Sorted R := by
  intro l
  induction l with
  | nil =>
    intro _ _
    simp [insertLE]
  | cons y ys ih =>
    intro hl hs
    have hy : ∀ b ∈ ys, R y b := (List.sorted_cons.1 hs).1
    have hys : ys.Sorted R := (List.sorted_cons.1 hs).2
    have hPy : P y := hl y (by simp)
    have hPys : ∀ a ∈ ys, P a := fun a ha => hl a (by simp [ha])
    rw [insertLE]
    split_ifs with hxy
    · rw [List.sorted_cons]
      refine ⟨?_, hs⟩
      intro b hb
      rcases List.mem_cons.1 hb with rfl | hb
      · exact (hcmp x b hx hPy).1 hxy
      · exact htrans x y b ((hcmp x y hx hPy).1 hxy) (hy b hb)
    · rw [List.sorted_cons]
      refine ⟨?_, ih hPys hys⟩
      intro b hb
      have hb' := (perm_insertLE le x ys).mem_iff.1 hb
      rcases List.mem_cons.1 hb' with rfl | hb'
      · exact (hcmp b y hx hPy).2 (by simpa using hxy)
      · exact hy b hb'

/-- The sort is sorted, under the same agreement hypothesis. -/
theorem sorted_sortLE {α : Type} {R : α → α → Prop} {le : α → α → Bool}
    {P : α → Prop} (htrans : ∀ a b c, R a b → R b c → R a c)
    (hcmp : ∀ a b, P a → P b →
      ((le a b = true → R a b) ∧ (le a b = false → R b a))) :
    ∀ l : List α, (∀ a ∈ l, P a) → (sortLE le l).Sorted R := by
  intro l
  induction l with
  | nil =>
    intro _
    simp [sortLE]
  | cons x xs ih =>
    intro hl
    rw [sortLE]
    exact sorted_insertLE htrans hcmp x (hl x (by simp)) (sortLE le xs)
      (fun a ha => hl a (by simp [(perm_sortLE le xs).mem_iff.1 ha]))
      (ih (fun a ha => hl a (by simp [ha])))

/-- Sample variance with the `n - 1` denominator, the square of the pandas
`.std()` statistic (`ddof = 1`); `none` models the `NaN` that pandas
produces on fewer than two observations. -/
def sampleVar (xs : List Rat) : Option Rat :=
  if 2 ≤ xs.length then
    some (((xs.map (fun x => (x - listMean xs) ^ 2)).sum) / ((xs.length : Rat) - 1))
  else none

/-- The `TempChange` observations of one country inside one split. -/
def tempsOf (t : List LongRow) (c : String) : List Rat :=
  (t.filter (fun r => r.country == c)).map (fun r => r.tempChange)

/-- `groupby("Country")["TempChange"].std()` over one split: one row per
distinct country of the split, carrying its sample statistic. -/
def groupStd (t : List LongRow) : List (String × Option Rat) :=
  (t.map (fun r => r.country)).dedup.map (fun c => (c, sampleVar (tempsOf t c)))

/-- The pre-pivot split `stats_base[stats_base["Year"] <= 1992]`
(lines 192-194). -/
def early (t : List LongRow) : List LongRow :=
  t.filter (fun r => decide (r.year ≤ 1992))

/-- The post-pivot split `stats_base[stats_base["Year"] >= 1993]`
(lines 195-197). -/
def late (t : List LongRow) : List LongRow :=
  t.filter (fun r => decide (1993 ≤ r.year))

/-- `std_comp = early.merge(late, on="Country")` (line 199): an inner join
on the (distinct) country keys of the two grouped frames. -/
def std_comp (t : List LongRow) : List (String × Option Rat × Option Rat) :=
  (groupStd (early t)).filterMap
    (fun p => ((groupStd (late t)).lookup p.1).map (fun vl => (p.1, p.2, vl)))

/-- The rows passing `std_comp["Delta_Std"] < 0` (line 201).  The comparison
`Std_Late - Std_Early < 0` of the source is evaluated on the stored
variances — legitimate because `√` is strictly monotone (see
`variability_delta_spec`) — and is `false` whenever either statistic is the
`NaN` of a single-observation split, exactly as the float comparison is. -/
def negativeRows (t : List LongRow) : List (String × Rat × Rat) :=
  (std_comp t).filterMap (fun x =>
    match x.2.1, x.2.2 with
    | some ve, some vl => if vl < ve then some (x.1, ve, vl) else none
    | _, _ => none)

/-- Comparison of two result rows by their std delta,
`√varLate − √varEarly`, decided rationally. -/
def rowLE (x y : String × Rat × Rat) : Bool :=
  deltaLE x.2.1 x.2.2 y.2.1 y.2.2

/-- `decreasing = std_comp[...].sort_values("Delta_Std")` (line 201): the
negative-delta rows in ascending delta order. -/
def decreasing (t : List LongRow) : List (String × Rat × Rat) :=
  sortLE rowLE (negativeRows t)

/-- Ascending order of result rows by their true (real-valued) std delta. -/
def stdDeltaLE (x y : String × Rat × Rat) : Prop :=
  Real.sqrt (x.2.2 : ℝ) - Real.sqrt (x.2.1 : ℝ) ≤
    Real.sqrt (y.2.2 : ℝ) - Real.sqrt (y.2.1 : ℝ)

/-- A defined sample statistic needs at least two observations. -/
theorem sampleVar_length {xs : List Rat} {v : Rat}
    (h : sampleVar xs = some v) : 2 ≤ xs.length := by
  by_contra hlen
  rw [sampleVar, if_neg hlen] at h
  cases h

/-- Sample variances are non-negative. -/
theorem sampleVar_nonneg {xs : List Rat} {v : Rat}
    (h : sampleVar xs = some v) : 0 ≤ v := by
  have hlen := sampleVar_length h
  rw [sampleVar, if_pos hlen] at h
  injection h with h
  subst h
  apply div_nonneg
  · apply List.sum_nonneg
    intro x hx
    rcases List.mem_map.1 hx with ⟨y, _, rfl⟩
    positivity
  · have h2 : (2:ℚ) ≤ (xs.length : ℚ) := by exact_mod_cast hlen
    linarith

/-- Looking a key up in an association list built over distinct keys. -/
theorem lookup_keyed {β : Type} (f : String → β) (c : String) :
    ∀ ks : List String,
      (ks.map (fun k => (k, f k))).lookup c =
        if c ∈ ks then some (f c) else none := by
  intro ks
  induction ks with
  | nil => rfl
  | cons k ks ih =>
    by_cases hck : c = k
    · subst hck
      simp [List.lookup]
    · have hbeq : (c == k) = false := by
        simpa using hck
      simp [List.lookup, hbeq, hck, ih]

/-- Membership in a grouped-std frame. -/
theorem mem_groupStd (t : List LongRow) (c : String) (v : Option Rat) :
    (c, v) ∈ groupStd t ↔
      c ∈ t.map (fun r => r.country) ∧ v = sampleVar (tempsOf t c) := by
  unfold groupStd
  constructor
  · intro h
    rcases List.mem_map.1 h with ⟨c0, hc0, heq⟩
    have hc : c0 = c := congrArg Prod.fst heq
    subst hc
    exact ⟨List.mem_dedup.1 hc0, (congrArg Prod.snd heq).symm⟩
  · rintro ⟨hc, rfl⟩
    exact List.mem_map.2 ⟨c, List.mem_dedup.2 hc, rfl⟩

/-- Lookup in a grouped-std frame. -/
theorem lookup_groupStd (t : List LongRow) (c : String) :
    (groupStd t).lookup c =
      if c ∈ (t.map (fun r => r.country)).dedup
      then some (sampleVar (tempsOf t c)) else none :=
  lookup_keyed _ c _

/-- Membership in the inner join: the country appears in both splits and
carries the two splits' statistics. -/
theorem mem_std_comp (t : List LongRow) (c : String) (ve vl : Option Rat) :
    (c, ve, vl) ∈ std_comp t ↔
      c ∈ (early t).map (fun r => r.country) ∧
      c ∈ (late t).map (fun r => r.country) ∧
      ve = sampleVar (tempsOf (early t) c) ∧
      vl = sampleVar (tempsOf (late t) c) := by
  unfold std_comp
  rw [List.mem_filterMap]
  constructor
  · rintro ⟨⟨c0, v0⟩, hp, hmap⟩
    rcases Option.map_eq_some'.1 hmap with ⟨vl0, hlk, heq⟩
    obtain ⟨rfl, rfl, rfl⟩ :
        c0 = c ∧ v0 = ve ∧ vl0 = vl := by
      simpa [Prod.ext_iff] using heq
    have h1 := (mem_groupStd (early t) c0 v0).1 hp
    rw [lookup_groupStd] at hlk
    by_cases hmem : c0 ∈ ((late t).map (fun r => r.country)).dedup
    · rw [if_pos hmem] at hlk
      injection hlk with hlk
      exact ⟨h1.1, List.mem_dedup.1 hmem, h1.2, hlk.symm⟩
    · rw [if_neg hmem] at hlk
      cases hlk
  · rintro ⟨h1, h2, rfl, rfl⟩
    refine ⟨(c, sampleVar (tempsOf (early t) c)), (mem_groupStd _ _ _).2 ⟨h1, rfl⟩, ?_⟩
    rw [lookup_groupStd, if_pos (List.mem_dedup.2 h2)]
    rfl

/-- A defined split statistic for `c` puts `c` among the split's
countries. -/
theorem mem_countries_of_sampleVar {s : List LongRow} {c : String} {a : Rat}
    (h : sampleVar (tempsOf s c) = some a) :
    c ∈ s.map (fun r => r.country) := by
  have hlen := sampleVar_length h
  have hne : tempsOf s c ≠ [] := by
    intro he
    rw [he] at hlen
    exact absurd hlen (by decide)
  unfold tempsOf at hne
  rcases List.exists_mem_of_ne_nil _ hne with ⟨x, hx⟩
  rcases List.mem_map.1 hx with ⟨r, hr, _⟩
  have hm := List.mem_filter.1 hr
  exact List.mem_map.2 ⟨r, hm.1, beq_iff_eq.1 hm.2⟩

/-- Membership among the kept (negative-delta) rows. -/
theorem mem_negativeRows (t : List LongRow) (c : String) (a b : Rat) :
    (c, a, b) ∈ negativeRows t ↔
      sampleVar (tempsOf (early t) c) = some a ∧
      sampleVar (tempsOf (late t) c) = some b ∧ b < a := by
  unfold negativeRows
  rw [List.mem_filterMap]
  constructor
  · rintro ⟨⟨c0, ve, vl⟩, hmem, hmatch⟩
    cases ve with
    | none =>
      dsimp only at hmatch
      cases hmatch
    | some ve0 =>
      cases vl with
      | none =>
        dsimp only at hmatch
        cases hmatch
      | some vl0 =>
        dsimp only at hmatch
        by_cases hlt : vl0 < ve0
        · rw [if_pos hlt] at hmatch
          obtain ⟨rfl, rfl, rfl⟩ :
              c0 = c ∧ ve0 = a ∧ vl0 = b := by
            simpa [Prod.ext_iff] using hmatch
          have h := (mem_std_comp t c0 (some ve0) (some vl0)).1 hmem
          exact ⟨h.2.2.1.symm, h.2.2.2.symm, hlt⟩
        · rw [if_neg hlt] at hmatch
          cases hmatch
  · rintro ⟨ha, hb, hlt⟩
    refine ⟨(c, some a, some b), ?_, ?_⟩
    · exact (mem_std_comp t c (some a) (some b)).2
        ⟨mem_countries_of_sampleVar ha, mem_countries_of_sampleVar hb,
         ha.symm, hb.symm⟩
    · simp [hlt]

/-- Every stored pair of a kept row is a pair of (non-negative) sample
variances with the late one smaller. -/
theorem negativeRows_inv (t : List LongRow) :
    ∀ e ∈ negativeRows t,
      sampleVar (tempsOf (early t) e.1) = some e.2.1 ∧
      sampleVar (tempsOf (late t) e.1) = some e.2.2 ∧ e.2.2 < e.2.1 := by
  rintro ⟨c, a, b⟩ he
  exact (mem_negativeRows t c a b).1 he

/-- C2: on every input table, `decreasing` keeps exactly the entities whose
sample (n−1 denominator) standard deviation is defined in both the
pre-1993 and post-1992 split — hence at least two observations on each
side; a single-observation split yields an undefined statistic and drops
the entity, never a zero — and strictly decreases across the pivot; every
kept row's delta `std_after − std_before` is negative, and the result is in
ascending delta order. -/
theorem variability_delta_spec (t : List LongRow) :
    (∀ (c : String) (a b : Rat),
      (c, a, b) ∈ decreasing t ↔
        sampleVar (tempsOf (early t) c) = some a ∧
        sampleVar (tempsOf (late t) c) = some b ∧
        Real.sqrt (b : ℝ) < Real.sqrt (a : ℝ)) ∧
    (∀ e ∈ decreasing t,
      2 ≤ (tempsOf (early t) e.1).length ∧
      2 ≤ (tempsOf (late t) e.1).length ∧
      e.1 ∈ (early t).map (fun r => r.country) ∧
      e.1 ∈ (late t).map (fun r => r.country)) ∧
    (∀ e ∈ decreasing t,
      Real.sqrt (e.2.2 : ℝ) - Real.sqrt (e.2.1 : ℝ) < 0) ∧
    (decreasing t).Sorted stdDeltaLE := by
  have hmemdec : ∀ e, e ∈ decreasing t ↔ e ∈ negativeRows t :=
    fun e => (perm_sortLE rowLE (negativeRows t)).mem_iff
  have hiff : ∀ (c : String) (a b : Rat),
      (c, a, b) ∈ decreasing t ↔
        sampleVar (tempsOf (early t) c) = some a ∧
        sampleVar (tempsOf (late t) c) = some b ∧
        Real.sqrt (b : ℝ) < Real.sqrt (a : ℝ) := by
    intro c a b
    rw [hmemdec, mem_negativeRows]
    constructor
    · rintro ⟨ha, hb, hlt⟩
      refine ⟨ha, hb, ?_⟩
      exact Real.sqrt_lt_sqrt (by exact_mod_cast sampleVar_nonneg hb)
        (by exact_mod_cast hlt)
    · rintro ⟨ha, hb, hlt⟩
      refine ⟨ha, hb, ?_⟩
      by_contra hle
      have : Real.sqrt (a : ℝ) ≤ Real.sqrt (b : ℝ) :=
        Real.sqrt_le_sqrt (by exact_mod_cast not_lt.1 hle)
      linarith
  refine ⟨hiff, ?_, ?_, ?_⟩
  · rintro ⟨c, a, b⟩ he
    have h := (hiff c a b).1 he
    exact ⟨sampleVar_length h.1, sampleVar_length h.2.1,
      mem_countries_of_sampleVar h.1, mem_countries_of_sampleVar h.2.1⟩
  · rintro ⟨c, a, b⟩ he
    have h := (hiff c a b).1 he
    simpa using sub_neg.2 h.2.2
  · show (sortLE rowLE (negativeRows t)).Sorted stdDeltaLE
    refine sorted_sortLE (R := stdDeltaLE)
      (P := fun e => 0 ≤ e.2.1 ∧ 0 ≤ e.2.2)
      (fun x y z hxy hyz => le_trans hxy hyz) ?_ (negativeRows t) ?_
    · rintro ⟨c1, a1, b1⟩ ⟨c2, a2, b2⟩ h1 h2
      have hiffLE := deltaLE_iff h1.1 h1.2 h2.1 h2.2
      constructor
      · intro htrue
        exact hiffLE.1 htrue
      · intro hfalse
        have hnot : ¬ (Real.sqrt (b1 : ℝ) - Real.sqrt (a1 : ℝ) ≤
            Real.sqrt (b2 : ℝ) - Real.sqrt (a2 : ℝ)) := by
          intro hcon
          rw [show rowLE (c1, a1, b1) (c2, a2, b2)
              = deltaLE a1 b1 a2 b2 from rfl] at hfalse
          rw [hiffLE.2 hcon] at hfalse
          cases hfalse
        exact le_of_not_le hnot
    · intro e he
      have h := negativeRows_inv t e he
      exact ⟨sampleVar_nonneg h.1, sampleVar_nonneg h.2.1⟩

end GlobalTemp
